import Mathlib

/-!
Verification of `src/reorder_ids.py`, a one-shot data-fixup script.

The script (19 lines of Python):

  1. `json.load`s `mock-data.json` (lines 4-5);
  2. renumbers `data['cars']` in place: `for i, car in enumerate(data['cars'], start=1): car['id'] = i` (lines 8-9);
  3. rewrites the same file with `open('mock-data.json', 'w')` + `json.dump` (lines 15-16);
  4. prints two summary lines using `len(data['cars'])` and `len(data['usedCars'])` (lines 18-19).

Shallow embedding choices:
  * Parsed JSON values are `JValue`; Python dicts are association lists with
    insertion order, which is exactly the guaranteed iteration/serialization
    order of a Python dict built by `json.load` (and such dicts have unique
    keys, each JSON object literal allocating a fresh dict so no aliasing).
  * Floats are omitted (`num` carries an `Int`): nothing in the script or the
    claims depends on non-integer numbers.
  * `json.load`'s result is the model's input: `none` stands for a raised
    `JSONDecodeError`.  `json.dump` is a deterministic function of the
    document, so the on-disk file is modelled abstractly as `FileContent`:
    either the original raw bytes (untouched) or the dump of a document.
  * An uncaught exception is a non-zero exit: `outcome = .error e`.
-/

/-- A parsed JSON value as produced by Python's `json.load`
(floats omitted, see the header comment). -/
inductive JValue : Type where
  | null : JValue
  | bool : Bool → JValue
  | num : Int → JValue
  | str : String → JValue
  | arr : List JValue → JValue
  | obj : List (String × JValue) → JValue

/-- The exceptions the script can raise (all uncaught, hence fatal):
`KeyError` from a missing dict key, `TypeError` from subscripting or
iterating a value of the wrong type, `JSONDecodeError` from `json.load`. -/
inductive JErr : Type where
  | keyError : String → JErr
  | typeError : JErr
  | parseError : JErr
deriving DecidableEq

/-- Python dict lookup `d[key]` on an insertion-ordered dict:
first (unique) matching key wins. -/
def lookupField : List (String × JValue) → String → Option JValue
  | [], _ => none
  | (k0, v0) :: rest, key => if k0 = key then some v0 else lookupField rest key

/-- Python dict assignment `d[key] = val`: an existing key keeps its
position and gets the new value; a fresh key is appended at the end. -/
def setField : List (String × JValue) → String → JValue → List (String × JValue)
  | [], key, val => [(key, val)]
  | (k0, v0) :: rest, key, val =>
    if k0 = key then (key, val) :: rest else (k0, v0) :: setField rest key val

/-- Removal of every binding of `key` (unique anyway in a real dict);
used to state "equal once the `id` field is ignored". -/
def eraseField : List (String × JValue) → String → List (String × JValue)
  | [], _ => []
  | (k0, v0) :: rest, key =>
    if k0 = key then eraseField rest key else (k0, v0) :: eraseField rest key

/-- Python subscript `data[key]` (line 8 and lines 18-19): `KeyError` when the
key is absent, `TypeError` when `data` is not a dict. -/
def getItem : JValue → String → Except JErr JValue
  | JValue.obj fs, key =>
    match lookupField fs key with
    | some v => Except.ok v
    | none => Except.error (JErr.keyError key)
  | _, _ => Except.error JErr.typeError

/-- The loop body over the elements of `data['cars']` (lines 8-9):
`car['id'] = i` with `i` counting from `start`.  Succeeds only when every
element is a dict; any other element raises `TypeError`.  (The loop's
in-place partial mutation on an error path is never observable: the file
write and the prints come after the loop.) -/
def renumberList : List JValue → Nat → Except JErr (List JValue)
  | [], _ => Except.ok []
  | JValue.obj fs :: rest, i =>
    match renumberList rest (i + 1) with
    | Except.ok ys => Except.ok (JValue.obj (setField fs "id" (JValue.num (Int.ofNat i))) :: ys)
    | Except.error e => Except.error e
  | _ :: _, _ => Except.error JErr.typeError

/-- `enumerate(data['cars'], start=1)` with the loop body, over whatever value
sits under `'cars'`: a list is renumbered element by element; a string or a
dict is iterable but yields strings (characters resp. keys), so the loop body
raises `TypeError` unless the iterable is empty; anything else is not
iterable (`TypeError`). -/
def mutateCars : JValue → Except JErr JValue
  | JValue.arr xs =>
    match renumberList xs 1 with
    | Except.ok ys => Except.ok (JValue.arr ys)
    | Except.error e => Except.error e
  | JValue.str s => if s.length = 0 then Except.ok (JValue.str s) else Except.error JErr.typeError
  | JValue.obj fs => if fs.length = 0 then Except.ok (JValue.obj fs) else Except.error JErr.typeError
  | _ => Except.error JErr.typeError

/-- Lines 8-9 as a document transformation: look up `data['cars']`, run the
renumbering loop, and (the in-place list mutation seen through the dict)
replace the value under `'cars'`.  Key order of `data` is unchanged. -/
def transformDoc : JValue → Except JErr JValue
  | JValue.obj fields =>
    match lookupField fields "cars" with
    | none => Except.error (JErr.keyError "cars")
    | some cars =>
      match mutateCars cars with
      | Except.ok newCars => Except.ok (JValue.obj (setField fields "cars" newCars))
      | Except.error e => Except.error e
  | _ => Except.error JErr.typeError

/-- Python `len(v)` (lines 18-19): defined for lists, strings and dicts,
`TypeError` otherwise. -/
def pyLen : JValue → Except JErr Nat
  | JValue.arr xs => Except.ok xs.length
  | JValue.str s => Except.ok s.length
  | JValue.obj fs => Except.ok fs.length
  | _ => Except.error JErr.typeError

/-- What the target file holds after the run: the original raw bytes, or the
`json.dump` of a document (`json.dump` is a deterministic function of the
document, so file equality is document equality in the second case). -/
inductive FileContent : Type where
  | raw : String → FileContent
  | dumped : JValue → FileContent

/-- Observable result of one process run: final file content, the lines
printed to stdout in order, the outcome (`ok` = exit 0, `error` = uncaught
exception, non-zero exit), and whether `open('mock-data.json', 'w')` was
reached (the write attempt). -/
structure RunResult : Type where
  file : FileContent
  stdout : List String
  outcome : Except JErr Unit
  wrote : Bool

/-- Line 18's text: f-string `Reordered {n} new cars (IDs 1-{n})`. -/
def line1 (n : Nat) : String :=
  "Reordered " ++ toString n ++ " new cars (IDs 1-" ++ toString n ++ ")"

/-- Line 19's text: f-string `Kept {m} used cars (IDs 101-200)`. -/
def line2 (m : Nat) : String :=
  "Kept " ++ toString m ++ " used cars (IDs 101-200)"

/-- The whole script, from the result of `json.load` (`none` = parse failure)
and the original file bytes to the observable `RunResult`.  Mirrors the
source order: load, renumber, write back, print line 18, print line 19;
every uncaught exception stops the run at that point. -/
def runScript (orig : String) (parsed : Option JValue) : RunResult :=
  match parsed with
  | none => ⟨FileContent.raw orig, [], Except.error JErr.parseError, false⟩
  | some data =>
    match transformDoc data with
    | Except.error e => ⟨FileContent.raw orig, [], Except.error e, false⟩
    | Except.ok newData =>
      let file := FileContent.dumped newData
      match getItem newData "cars" with
      | Except.error e => ⟨file, [], Except.error e, true⟩
      | Except.ok newCars =>
        match pyLen newCars with
        | Except.error e => ⟨file, [], Except.error e, true⟩
        | Except.ok n =>
          match getItem newData "usedCars" with
          | Except.error e => ⟨file, [line1 n], Except.error e, true⟩
          | Except.ok used =>
            match pyLen used with
            | Except.error e => ⟨file, [line1 n], Except.error e, true⟩
            | Except.ok m => ⟨file, [line1 n, line2 m], Except.ok (), true⟩

/-- Lines 15-16 mechanically: `open('mock-data.json', 'w')` truncates the
target in place, then `json.dump` streams the serialized text into it; if the
run is interrupted after `progress` characters, exactly that prefix is on
disk, and the prior content is gone in every case. -/
def writeInPlace (serialized : String) (progress : Nat) : String :=
  String.take serialized progress

/-- A record, as an element of a collection, is a dict. -/
def isVehicle : JValue → Bool
  | JValue.obj _ => true
  | _ => false

/-- A valid input Document in the sense of the spec's data model: a dict with
a `cars` key holding a list of records and a `usedCars` key holding a list. -/
def validDoc : JValue → Bool
  | JValue.obj fields =>
    (match lookupField fields "cars" with
     | some (JValue.arr xs) => xs.all isVehicle
     | _ => false)
    &&
    (match lookupField fields "usedCars" with
     | some (JValue.arr _) => true
     | _ => false)
  | _ => false

/-- Field projection on a record. -/
def fieldOf : JValue → String → Option JValue
  | JValue.obj fs, k => lookupField fs k
  | _, _ => none

/-- The `id` field of a record. -/
def idOf (v : JValue) : Option JValue := fieldOf v "id"

/-- The value under `cars` of a Document. -/
def carsOf (d : JValue) : Option JValue := fieldOf d "cars"

/-- The value under `usedCars` of a Document. -/
def usedCarsOf (d : JValue) : Option JValue := fieldOf d "usedCars"

/-- A record with its `id` field ignored (for "structural equality with the
`id` field ignored"). -/
def nonIdFields : JValue → Option (List (String × JValue))
  | JValue.obj fs => some (eraseField fs "id")
  | _ => none

/-! ### Basic facts about dict update -/

theorem lookupField_setField_self (fs : List (String × JValue)) (k : String) (v : JValue) :
    lookupField (setField fs k v) k = some v := by
  induction fs with
  | nil => simp [setField, lookupField]
  | cons p rest ih =>
    obtain ⟨k0, v0⟩ := p
    by_cases h : k0 = k
    · subst h
      simp [setField, lookupField]
    · simp [setField, lookupField, h, ih]

theorem lookupField_setField_ne (fs : List (String × JValue)) (k k1 : String) (v : JValue)
    (h : k1 ≠ k) : lookupField (setField fs k v) k1 = lookupField fs k1 := by
  induction fs with
  | nil =>
    simp [setField, lookupField]
    intro h2
    exact absurd h2.symm h
  | cons p rest ih =>
    obtain ⟨k0, v0⟩ := p
    by_cases h0 : k0 = k
    · subst h0
      have hne : ¬ k0 = k1 := fun h2 => absurd h2.symm h
      simp [setField, lookupField, hne]
    · by_cases h1 : k0 = k1
      · subst h1
        simp [setField, lookupField, h0]
      · simp [setField, lookupField, h0, h1, ih]

theorem setField_setField (fs : List (String × JValue)) (k : String) (v v1 : JValue) :
    setField (setField fs k v) k v1 = setField fs k v1 := by
  induction fs with
  | nil => simp [setField]
  | cons p rest ih =>
    obtain ⟨k0, v0⟩ := p
    by_cases h : k0 = k
    · subst h
      simp [setField]
    · simp [setField, h, ih]

theorem eraseField_setField (fs : List (String × JValue)) (k : String) (v : JValue) :
    eraseField (setField fs k v) k = eraseField fs k := by
  induction fs with
  | nil => simp [setField, eraseField]
  | cons p rest ih =>
    obtain ⟨k0, v0⟩ := p
    by_cases h : k0 = k
    · subst h
      simp [setField, eraseField]
    · simp [setField, eraseField, h, ih]

/-! ### The renumbering loop -/

theorem renumberList_length (xs ys : List JValue) (i : Nat)
    (h : renumberList xs i = Except.ok ys) : ys.length = xs.length := by
  induction xs generalizing i ys with
  | nil =>
    simp [renumberList] at h
    simp [← h]
  | cons c rest ih =>
    cases c with
    | obj fs =>
      rw [renumberList] at h
      cases hr : renumberList rest (i + 1) with
      | ok ys0 =>
        rw [hr] at h
        cases h
        simp only [List.length_cons]
        rw [ih _ _ hr]
      | error e => rw [hr] at h; cases h
    | null => simp [renumberList] at h
    | bool b => simp [renumberList] at h
    | num n => simp [renumberList] at h
    | str s => simp [renumberList] at h
    | arr zs => simp [renumberList] at h

theorem renumberList_total (xs : List JValue) (i : Nat) (h : xs.all isVehicle = true) :
    ∃ ys, renumberList xs i = Except.ok ys := by
  induction xs generalizing i with
  | nil => exact ⟨[], rfl⟩
  | cons c rest ih =>
    simp [List.all_cons] at h
    obtain ⟨hc, hrest⟩ := h
    obtain ⟨ys0, hys0⟩ := ih (i + 1) (by simpa [List.all_eq] using hrest)
    cases c with
    | obj fs =>
      exact ⟨JValue.obj (setField fs "id" (JValue.num (Int.ofNat i))) :: ys0,
        by rw [renumberList, hys0]⟩
    | null => simp [isVehicle] at hc
    | bool b => simp [isVehicle] at hc
    | num n => simp [isVehicle] at hc
    | str s => simp [isVehicle] at hc
    | arr zs => simp [isVehicle] at hc

theorem renumberList_get? (xs : List JValue) (i : Nat) (ys : List JValue)
    (h : renumberList xs i = Except.ok ys) (j : Nat) (c : JValue)
    (hx : xs.get? j = some c) :
    ∃ d, ys.get? j = some d ∧ idOf d = some (JValue.num (Int.ofNat (i + j))) ∧
      nonIdFields d = nonIdFields c ∧ ∀ k, k ≠ "id" → fieldOf d k = fieldOf c k := by
  induction xs generalizing i ys j with
  | nil => simp at hx
  | cons c0 rest ih =>
    cases c0 with
    | obj fs =>
      rw [renumberList] at h
      cases hr : renumberList rest (i + 1) with
      | error e => rw [hr] at h; cases h
      | ok ys0 =>
        rw [hr] at h
        cases h
        cases j with
        | zero =>
          refine ⟨JValue.obj (setField fs "id" (JValue.num (Int.ofNat i))), rfl, ?_, ?_, ?_⟩
          · simp at hx
            simp [idOf, fieldOf, lookupField_setField_self]
          · simp at hx
            subst hx
            simp [nonIdFields, eraseField_setField]
          · simp at hx
            subst hx
            intro k hk
            simp [fieldOf, lookupField_setField_ne fs "id" k _ hk]
        | succ j1 =>
          simp only [List.get?] at hx
          obtain ⟨d, hd, hid, hnon, hframe⟩ := ih (i + 1) ys0 hr j1 hx
          refine ⟨d, by simpa using hd, ?_, hnon, hframe⟩
          have harith : i + 1 + j1 = i + (j1 + 1) := by omega
          rw [← harith]
          exact hid
    | null => simp [renumberList] at h
    | bool b => simp [renumberList] at h
    | num n => simp [renumberList] at h
    | str s => simp [renumberList] at h
    | arr zs => simp [renumberList] at h

theorem renumberList_idem (xs : List JValue) (i : Nat) (ys : List JValue)
    (h : renumberList xs i = Except.ok ys) : renumberList ys i = Except.ok ys := by
  induction xs generalizing i ys with
  | nil =>
    simp [renumberList] at h
    subst h
    rfl
  | cons c0 rest ih =>
    cases c0 with
    | obj fs =>
      rw [renumberList] at h
      cases hr : renumberList rest (i + 1) with
      | error e => rw [hr] at h; cases h
      | ok ys0 =>
        rw [hr] at h
        cases h
        rw [renumberList, ih (i + 1) ys0 hr, setField_setField]
    | null => simp [renumberList] at h
    | bool b => simp [renumberList] at h
    | num n => simp [renumberList] at h
    | str s => simp [renumberList] at h
    | arr zs => simp [renumberList] at h

/-! ### Valid documents and the document transformation -/

theorem validDoc_elim (d : JValue) (h : validDoc d = true) :
    ∃ fields xs us, d = JValue.obj fields ∧
      lookupField fields "cars" = some (JValue.arr xs) ∧
      xs.all isVehicle = true ∧
      lookupField fields "usedCars" = some (JValue.arr us) := by
  cases d with
  | null => exact Bool.noConfusion h
  | bool b => exact Bool.noConfusion h
  | num n => exact Bool.noConfusion h
  | str s => exact Bool.noConfusion h
  | arr zs => exact Bool.noConfusion h
  | obj fields =>
    simp only [validDoc, Bool.and_eq_true] at h
    obtain ⟨h1, h2⟩ := h
    cases hc : lookupField fields "cars" with
    | none => rw [hc] at h1; exact Bool.noConfusion h1
    | some v =>
      rw [hc] at h1
      cases hu : lookupField fields "usedCars" with
      | none => rw [hu] at h2; exact Bool.noConfusion h2
      | some w =>
        rw [hu] at h2
        cases v with
        | arr xs =>
          cases w with
          | arr us => exact ⟨fields, xs, us, rfl, hc, h1, hu⟩
          | null => exact Bool.noConfusion h2
          | bool b => exact Bool.noConfusion h2
          | num n => exact Bool.noConfusion h2
          | str s => exact Bool.noConfusion h2
          | obj g => exact Bool.noConfusion h2
        | null => exact Bool.noConfusion h1
        | bool b => exact Bool.noConfusion h1
        | num n => exact Bool.noConfusion h1
        | str s => exact Bool.noConfusion h1
        | obj g => exact Bool.noConfusion h1

theorem transformDoc_eq (fields : List (String × JValue)) (xs ys : List JValue)
    (hc : lookupField fields "cars" = some (JValue.arr xs))
    (hr : renumberList xs 1 = Except.ok ys) :
    transformDoc (JValue.obj fields) =
      Except.ok (JValue.obj (setField fields "cars" (JValue.arr ys))) := by
  simp [transformDoc, hc, mutateCars, hr]

theorem transformDoc_of_valid (d : JValue) (h : validDoc d = true) :
    ∃ fields xs ys us, d = JValue.obj fields ∧
      lookupField fields "cars" = some (JValue.arr xs) ∧
      xs.all isVehicle = true ∧
      lookupField fields "usedCars" = some (JValue.arr us) ∧
      renumberList xs 1 = Except.ok ys ∧
      transformDoc d =
        Except.ok (JValue.obj (setField fields "cars" (JValue.arr ys))) := by
  obtain ⟨fields, xs, us, hd, hc, hv, hu⟩ := validDoc_elim d h
  obtain ⟨ys, hr⟩ := renumberList_total xs 1 hv
  subst hd
  exact ⟨fields, xs, ys, us, rfl, hc, hv, hu, hr, transformDoc_eq fields xs ys hc hr⟩

/-! ### The whole run on documents that reach the write -/

theorem runScript_file_of_ok (orig : String) (data nd : JValue)
    (h : transformDoc data = Except.ok nd) :
    (runScript orig (some data)).file = FileContent.dumped nd ∧
    (runScript orig (some data)).wrote = true := by
  simp only [runScript]
  rw [h]
  cases hg : getItem nd "cars" with
  | error e => simp [hg]
  | ok c =>
    cases hp : pyLen c with
    | error e => simp [hg, hp]
    | ok n =>
      cases hu : getItem nd "usedCars" with
      | error e => simp [hg, hp, hu]
      | ok u =>
        cases hl : pyLen u with
        | error e => simp [hg, hp, hu, hl]
        | ok m => simp [hg, hp, hu, hl]

theorem runScript_of_valid (orig : String) (fields : List (String × JValue))
    (xs ys us : List JValue)
    (hc : lookupField fields "cars" = some (JValue.arr xs))
    (hu : lookupField fields "usedCars" = some (JValue.arr us))
    (hr : renumberList xs 1 = Except.ok ys) :
    runScript orig (some (JValue.obj fields)) =
      ⟨FileContent.dumped (JValue.obj (setField fields "cars" (JValue.arr ys))),
       [line1 xs.length, line2 us.length], Except.ok (), true⟩ := by
  have ht := transformDoc_eq fields xs ys hc hr
  have hlen := renumberList_length xs ys 1 hr
  have hg : getItem (JValue.obj (setField fields "cars" (JValue.arr ys))) "cars"
      = Except.ok (JValue.arr ys) := by
    simp [getItem, lookupField_setField_self]
  have hne : ("usedCars" : String) ≠ "cars" := by decide
  have hgu : getItem (JValue.obj (setField fields "cars" (JValue.arr ys))) "usedCars"
      = Except.ok (JValue.arr us) := by
    simp [getItem, lookupField_setField_ne fields "cars" "usedCars" (JValue.arr ys) hne, hu]
  simp only [runScript]
  rw [ht]
  simp [hg, hgu, pyLen, hlen]

/-! ### Index-wise consequences of the loop -/

theorem renumberList_ids (xs ys : List JValue) (hr : renumberList xs 1 = Except.ok ys)
    (j : Nat) (c : JValue) (hyc : ys.get? j = some c) :
    idOf c = some (JValue.num (Int.ofNat (j + 1))) := by
  have hlen := renumberList_length xs ys 1 hr
  obtain ⟨hjlt, _⟩ := List.get?_eq_some.1 hyc
  have hjx : j < xs.length := hlen ▸ hjlt
  obtain ⟨d, hd, hid, _, _⟩ :=
    renumberList_get? xs 1 ys hr j (xs.get ⟨j, hjx⟩) (List.get?_eq_get hjx)
  rw [hyc] at hd
  have hcd : c = d := Option.some.inj hd
  subst hcd
  have harith : 1 + j = j + 1 := Nat.add_comm 1 j
  rw [harith] at hid
  exact hid

theorem renumberList_frame (xs ys : List JValue) (hr : renumberList xs 1 = Except.ok ys)
    (j : Nat) (c c1 : JValue) (hxc : xs.get? j = some c) (hyc : ys.get? j = some c1) :
    nonIdFields c1 = nonIdFields c ∧
    ∀ k, k ≠ "id" → fieldOf c1 k = fieldOf c k := by
  obtain ⟨d, hd, _, hnon, hframe⟩ := renumberList_get? xs 1 ys hr j c hxc
  rw [hyc] at hd
  have hcd : c1 = d := Option.some.inj hd
  subst hcd
  exact ⟨hnon, hframe⟩

/-! ### Concrete documents used to instantiate the theorems
(`sampleDoc` is the input of the spec's section-8 scenario). -/

def sampleDoc : JValue :=
  JValue.obj
    [("cars", JValue.arr
        [JValue.obj [("id", JValue.num 5), ("make", JValue.str "X")],
         JValue.obj [("id", JValue.num 9), ("make", JValue.str "Y")]]),
     ("usedCars", JValue.arr
        [JValue.obj [("id", JValue.num 101), ("make", JValue.str "Z")]])]

def sampleDocOut : JValue :=
  JValue.obj
    [("cars", JValue.arr
        [JValue.obj [("id", JValue.num 1), ("make", JValue.str "X")],
         JValue.obj [("id", JValue.num 2), ("make", JValue.str "Y")]]),
     ("usedCars", JValue.arr
        [JValue.obj [("id", JValue.num 101), ("make", JValue.str "Z")]])]

def oddCars : List JValue :=
  [JValue.obj [("make", JValue.str "noId")],
   JValue.obj [("id", JValue.str "notAnInt")]]

/-! ### The claims -/

/-- Claim C1: for every valid input Document whose `cars` key holds a sequence
of N records, the renumbering succeeds, the transformed Document is what gets
written to the file, the output `cars` sequence has the input's length, and
its entry at 0-based index `j` has `id = j + 1` — so the ids are exactly
`1..N` with no gaps or duplicates. -/
theorem C1_cars_ids_sequential (orig : String) (d : JValue) (h : validDoc d = true) :
    ∃ d1 xs ys, transformDoc d = Except.ok d1 ∧
      (runScript orig (some d)).file = FileContent.dumped d1 ∧
      carsOf d = some (JValue.arr xs) ∧ carsOf d1 = some (JValue.arr ys) ∧
      ys.length = xs.length ∧
      ∀ j c, ys.get? j = some c → idOf c = some (JValue.num (Int.ofNat (j + 1))) := by
  obtain ⟨fields, xs, ys, us, hd, hc, hv, hu, hr, ht⟩ := transformDoc_of_valid d h
  subst hd
  refine ⟨_, xs, ys, ht, (runScript_file_of_ok orig _ _ ht).1, ?_, ?_,
    renumberList_length xs ys 1 hr, fun j c hyc => renumberList_ids xs ys hr j c hyc⟩
  · simp [carsOf, fieldOf, hc]
  · simp [carsOf, fieldOf, lookupField_setField_self]

theorem C1_witness : validDoc sampleDoc = true ∧
    (∃ d1 xs ys, transformDoc sampleDoc = Except.ok d1 ∧
      (runScript "orig" (some sampleDoc)).file = FileContent.dumped d1 ∧
      carsOf sampleDoc = some (JValue.arr xs) ∧ carsOf d1 = some (JValue.arr ys) ∧
      ys.length = xs.length ∧
      ∀ j c, ys.get? j = some c → idOf c = some (JValue.num (Int.ofNat (j + 1)))) :=
  ⟨rfl, C1_cars_ids_sequential "orig" sampleDoc rfl⟩

/-- Claim C2: for every valid input Document, the `usedCars` collection of the
transformed Document is deeply equal to the input's `usedCars` collection —
the tool changes nothing in it, including its existing `id` values. -/
theorem C2_usedCars_unchanged (d d1 : JValue) (h : validDoc d = true)
    (ht : transformDoc d = Except.ok d1) : usedCarsOf d1 = usedCarsOf d := by
  obtain ⟨fields, xs, ys, us, hd, hc, hv, hu, hr, ht2⟩ := transformDoc_of_valid d h
  subst hd
  rw [ht] at ht2
  have h1 := Except.ok.inj ht2
  subst h1
  have hne : ("usedCars" : String) ≠ "cars" := by decide
  simp [usedCarsOf, fieldOf,
    lookupField_setField_ne fields "cars" "usedCars" (JValue.arr ys) hne]

theorem C2_witness : validDoc sampleDoc = true ∧
    transformDoc sampleDoc = Except.ok sampleDocOut ∧
    usedCarsOf sampleDocOut = usedCarsOf sampleDoc :=
  ⟨rfl, rfl, C2_usedCars_unchanged sampleDoc sampleDocOut rfl rfl⟩

/-- Claim C3: for every valid input Document, `cars` keeps its length and
element order, and each entry is unchanged apart from its `id` field: the
entries at equal indices agree once `id` is erased, hence on every field
other than `id`. -/
theorem C3_cars_entries_preserved (d d1 : JValue) (h : validDoc d = true)
    (ht : transformDoc d = Except.ok d1) :
    ∃ xs ys, carsOf d = some (JValue.arr xs) ∧ carsOf d1 = some (JValue.arr ys) ∧
      ys.length = xs.length ∧
      ∀ j c c1, xs.get? j = some c → ys.get? j = some c1 →
        nonIdFields c1 = nonIdFields c ∧
        ∀ k, k ≠ "id" → fieldOf c1 k = fieldOf c k := by
  obtain ⟨fields, xs, ys, us, hd, hc, hv, hu, hr, ht2⟩ := transformDoc_of_valid d h
  subst hd
  rw [ht] at ht2
  have h1 := Except.ok.inj ht2
  subst h1
  refine ⟨xs, ys, by simp [carsOf, fieldOf, hc],
    by simp [carsOf, fieldOf, lookupField_setField_self],
    renumberList_length xs ys 1 hr,
    fun j c c1 hxc hyc => renumberList_frame xs ys hr j c c1 hxc hyc⟩

theorem C3_witness : validDoc sampleDoc = true ∧
    transformDoc sampleDoc = Except.ok sampleDocOut ∧
    (∃ xs ys, carsOf sampleDoc = some (JValue.arr xs) ∧
      carsOf sampleDocOut = some (JValue.arr ys) ∧ ys.length = xs.length ∧
      ∀ j c c1, xs.get? j = some c → ys.get? j = some c1 →
        nonIdFields c1 = nonIdFields c ∧
        ∀ k, k ≠ "id" → fieldOf c1 k = fieldOf c k) :=
  ⟨rfl, rfl, C3_cars_entries_preserved sampleDoc sampleDocOut rfl rfl⟩

/-- Claim C4: the transformation is idempotent — on a valid input it succeeds,
its output transforms to itself, and the file written on the second run is
the same dump of the same Document as on the first run. -/
theorem C4_idempotent (orig : String) (d d1 : JValue) (h : validDoc d = true)
    (ht : transformDoc d = Except.ok d1) :
    transformDoc d1 = Except.ok d1 ∧
    (runScript orig (some d)).file = FileContent.dumped d1 ∧
    (runScript orig (some d1)).file = FileContent.dumped d1 := by
  obtain ⟨fields, xs, ys, us, hd, hc, hv, hu, hr, ht2⟩ := transformDoc_of_valid d h
  subst hd
  rw [ht] at ht2
  have h1 := Except.ok.inj ht2
  subst h1
  have hidem : transformDoc (JValue.obj (setField fields "cars" (JValue.arr ys)))
      = Except.ok (JValue.obj (setField fields "cars" (JValue.arr ys))) := by
    have h2 := transformDoc_eq (setField fields "cars" (JValue.arr ys)) ys ys
      (lookupField_setField_self fields "cars" (JValue.arr ys))
      (renumberList_idem xs 1 ys hr)
    rw [setField_setField] at h2
    exact h2
  exact ⟨hidem, (runScript_file_of_ok orig _ _ ht).1, (runScript_file_of_ok orig _ _ hidem).1⟩

theorem C4_witness : validDoc sampleDoc = true ∧
    transformDoc sampleDoc = Except.ok sampleDocOut ∧
    (transformDoc sampleDocOut = Except.ok sampleDocOut ∧
     (runScript "orig" (some sampleDoc)).file = FileContent.dumped sampleDocOut ∧
     (runScript "orig" (some sampleDocOut)).file = FileContent.dumped sampleDocOut) :=
  ⟨rfl, rfl, C4_idempotent "orig" sampleDoc sampleDocOut rfl rfl⟩

/-- Claim C5: on every valid input Document the run succeeds and prints
exactly two lines, whose counts are the lengths of `cars` and `usedCars`,
phrased `Reordered N new cars (IDs 1-N)` and `Kept M used cars (IDs 101-200)`
(see `line1` and `line2`, and the concrete strings in the witness). -/
theorem C5_report_counts (orig : String) (d : JValue) (h : validDoc d = true) :
    ∃ xs us, carsOf d = some (JValue.arr xs) ∧ usedCarsOf d = some (JValue.arr us) ∧
      (runScript orig (some d)).stdout = [line1 xs.length, line2 us.length] ∧
      (runScript orig (some d)).outcome = Except.ok () := by
  obtain ⟨fields, xs, ys, us, hd, hc, hv, hu, hr, ht⟩ := transformDoc_of_valid d h
  subst hd
  rw [runScript_of_valid orig fields xs ys us hc hu hr]
  exact ⟨xs, us, by simp [carsOf, fieldOf, hc], by simp [usedCarsOf, fieldOf, hu], rfl, rfl⟩

theorem C5_witness : validDoc sampleDoc = true ∧
    line1 2 = "Reordered 2 new cars (IDs 1-2)" ∧
    line2 1 = "Kept 1 used cars (IDs 101-200)" ∧
    (∃ xs us, carsOf sampleDoc = some (JValue.arr xs) ∧
      usedCarsOf sampleDoc = some (JValue.arr us) ∧
      (runScript "orig" (some sampleDoc)).stdout = [line1 xs.length, line2 us.length] ∧
      (runScript "orig" (some sampleDoc)).outcome = Except.ok ()) :=
  ⟨rfl, by decide, by decide, C5_report_counts "orig" sampleDoc rfl⟩

/-- Claim C6 as amended: a missing `cars` key aborts the run with a
`KeyError` before any write, the file untouched; but a missing `usedCars` key
(with `cars` present and renumberable) is only detected at the final report
line, after the file has already been rewritten and the first summary line
printed — the failure is still fatal, yet a write was attempted. -/
theorem C6_missing_key_behavior (orig : String) (fields : List (String × JValue)) :
    (lookupField fields "cars" = none →
      runScript orig (some (JValue.obj fields)) =
        ⟨FileContent.raw orig, [], Except.error (JErr.keyError "cars"), false⟩) ∧
    (∀ xs, lookupField fields "cars" = some (JValue.arr xs) →
      xs.all isVehicle = true →
      lookupField fields "usedCars" = none →
      (runScript orig (some (JValue.obj fields))).outcome
          = Except.error (JErr.keyError "usedCars") ∧
      (runScript orig (some (JValue.obj fields))).wrote = true ∧
      (runScript orig (some (JValue.obj fields))).stdout = [line1 xs.length]) := by
  constructor
  · intro hc
    simp [runScript, transformDoc, hc]
  · intro xs hc hv hu
    obtain ⟨ys, hr⟩ := renumberList_total xs 1 hv
    have ht := transformDoc_eq fields xs ys hc hr
    have hlen := renumberList_length xs ys 1 hr
    have hg : getItem (JValue.obj (setField fields "cars" (JValue.arr ys))) "cars"
        = Except.ok (JValue.arr ys) := by
      simp [getItem, lookupField_setField_self]
    have hne : ("usedCars" : String) ≠ "cars" := by decide
    have hgu : getItem (JValue.obj (setField fields "cars" (JValue.arr ys))) "usedCars"
        = Except.error (JErr.keyError "usedCars") := by
      simp [getItem, lookupField_setField_ne fields "cars" "usedCars" (JValue.arr ys) hne, hu]
    refine ⟨?_, ?_, ?_⟩ <;>
      · simp only [runScript]
        rw [ht]
        simp [hg, hgu, pyLen, hlen]

theorem C6_counterexample :
    (runScript "before" (some (JValue.obj [("cars", JValue.arr [])]))).outcome
        = Except.error (JErr.keyError "usedCars") ∧
    (runScript "before" (some (JValue.obj [("cars", JValue.arr [])]))).wrote = true :=
  ⟨rfl, rfl⟩

theorem C6_missing_key_behavior_witness :
    (runScript "keep" (some (JValue.obj [("usedCars", JValue.arr [])])) =
      ⟨FileContent.raw "keep", [], Except.error (JErr.keyError "cars"), false⟩) ∧
    ((runScript "keep" (some (JValue.obj [("cars", JValue.arr [JValue.obj []])]))).outcome
        = Except.error (JErr.keyError "usedCars") ∧
     (runScript "keep" (some (JValue.obj [("cars", JValue.arr [JValue.obj []])]))).wrote
        = true ∧
     (runScript "keep" (some (JValue.obj [("cars", JValue.arr [JValue.obj []])]))).stdout
        = [line1 1]) :=
  ⟨(C6_missing_key_behavior "keep" [("usedCars", JValue.arr [])]).1 rfl,
   (C6_missing_key_behavior "keep" [("cars", JValue.arr [JValue.obj []])]).2
     [JValue.obj []] rfl rfl rfl⟩

/-- Claim C7 (the code lacks the claimed atomicity): lines 15-16 truncate the
target in place before streaming the dump, so a run interrupted after one
character leaves just that character on disk — a partial write is visible and
the original content is gone, exactly the in-place-overwrite risk the spec's
design notes flag. -/
theorem C7_interrupted_write_partial :
    writeInPlace "\x7b\n  \"cars\": []\n\x7d" 1 = "\x7b" ∧
    writeInPlace "\x7b\n  \"cars\": []\n\x7d" 1 ≠ "\x7b\n  \"cars\": []\n\x7d" :=
  ⟨rfl, by decide⟩

/-- Claim C8: when `json.load` fails (malformed input), the run stops at once
with the parse error: non-zero exit, the file still holds its original bytes,
no write attempted, nothing printed. -/
theorem C8_parse_failure_no_write (orig : String) :
    runScript orig none =
      ⟨FileContent.raw orig, [], Except.error JErr.parseError, false⟩ := rfl

/-- Claim C9: the loop body assigns the 1-based position to `id` with no
precondition on the pre-run `id`: any list of records (dicts) is renumbered,
whether an entry lacked `id` or held a non-integer there (see the witness). -/
theorem C9_no_id_precondition (xs : List JValue) (h : xs.all isVehicle = true) :
    ∃ ys, renumberList xs 1 = Except.ok ys ∧ ys.length = xs.length ∧
      ∀ j c, ys.get? j = some c → idOf c = some (JValue.num (Int.ofNat (j + 1))) := by
  obtain ⟨ys, hr⟩ := renumberList_total xs 1 h
  exact ⟨ys, hr, renumberList_length xs ys 1 hr,
    fun j c hyc => renumberList_ids xs ys hr j c hyc⟩

theorem C9_witness : oddCars.all isVehicle = true ∧
    (∃ ys, renumberList oddCars 1 = Except.ok ys ∧ ys.length = oddCars.length ∧
      ∀ j c, ys.get? j = some c → idOf c = some (JValue.num (Int.ofNat (j + 1)))) :=
  ⟨rfl, C9_no_id_precondition oddCars rfl⟩

/-- Claim C10: the script is deterministic and its observable output depends
on nothing but the input file's parsed content: two runs with the same parse
result and arbitrary — possibly different — original file bytes print the
same lines, end with the same outcome and the same write-flag, and whenever
the write is reached they write the identical file.  (The only way the raw
bytes show through is as the untouched original content on the failure paths
that stop before the write.) -/
theorem C10_output_depends_only_on_parse (orig1 orig2 : String) (p : Option JValue) :
    (runScript orig1 p).stdout = (runScript orig2 p).stdout ∧
    (runScript orig1 p).outcome = (runScript orig2 p).outcome ∧
    (runScript orig1 p).wrote = (runScript orig2 p).wrote ∧
    ((runScript orig1 p).wrote = true →
      (runScript orig1 p).file = (runScript orig2 p).file) := by
  cases p with
  | none => exact ⟨rfl, rfl, rfl, fun hw => Bool.noConfusion hw⟩
  | some data =>
    cases ht : transformDoc data with
    | error e =>
      simp only [runScript]
      rw [ht]
      exact ⟨rfl, rfl, rfl, fun hw => Bool.noConfusion hw⟩
    | ok nd =>
      simp only [runScript]
      rw [ht]
      exact ⟨rfl, rfl, rfl, fun _ => rfl⟩

theorem C10_witness :
    (runScript "alpha" (some sampleDoc)).stdout
        = (runScript "beta" (some sampleDoc)).stdout ∧
    (runScript "alpha" (some sampleDoc)).outcome
        = (runScript "beta" (some sampleDoc)).outcome ∧
    (runScript "alpha" (some sampleDoc)).file
        = (runScript "beta" (some sampleDoc)).file :=
  ⟨(C10_output_depends_only_on_parse "alpha" "beta" (some sampleDoc)).1,
   (C10_output_depends_only_on_parse "alpha" "beta" (some sampleDoc)).2.1,
   (C10_output_depends_only_on_parse "alpha" "beta" (some sampleDoc)).2.2.2 rfl⟩
